import Mathlib

/-!
Shallow embedding of the session core of the guessmydrawing app
(src/src/App.tsx) and of the GameEscrow contract (scripts/deploy.js),
with theorems about lobby-owner election, the round scheduler, word
selection, guess evaluation and scoring, chat masking, and prize
distribution.

Conventions: JS numbers holding timestamps, rounds and scores are
modelled as Int (all arithmetic the app performs on them is exact in
double precision for the reachable ranges); JS objects used as keyed
maps are insertion-ordered association lists; Math.random-driven index
choices are passed in as an arbitrary Nat reduced modulo the sampled
list's length; Date.now() is passed in as a parameter; a Solidity
revert is an Except.error.
-/

namespace App

/-- JS object lookup obj[k] over an insertion-ordered association list. -/
def jsGet {α : Type} : List (String × α) → String → Option α
  | [], _ => none
  | e :: t, k => if e.1 = k then some e.2 else jsGet t k

/-- JS lookup with JS-falsy default: obj[k] || d (stored values here are never falsy). -/
def jsGetD {α : Type} (m : List (String × α)) (k : String) (d : α) : α :=
  (jsGet m k).getD d

/-- JS spread update of obj with computed key [k]: v — replaces the value at k in
    place (keys are unique in every map this development builds), appends when absent. -/
def jsSet {α : Type} : List (String × α) → String → α → List (String × α)
  | [], k, v => [(k, v)]
  | e :: t, k, v => if e.1 = k then (k, v) :: t else e :: jsSet t k v

/-! ## Data model (App.tsx lines 41-94) -/

/-- Player (App.tsx lines 41-50). -/
structure Player where
  id : String
  nickname : String
  score : Int
  hasPaid : Bool
  isReady : Bool
  walletAddress : Option String
  joinedAt : Int
  deriving DecidableEq

/-- GameState.phase (App.tsx line 53). -/
inductive Phase where
  | lobby
  | wagering
  | playing
  | intermission
  | finished
  deriving DecidableEq

/-- GameState (App.tsx lines 52-66). scores is the replicated per-id score map. -/
structure GameState where
  phase : Phase
  currentRound : Int
  totalRounds : Int
  currentDrawer : Option String
  currentWord : Option String
  timeRemaining : Int
  roundStartTime : Int
  scores : List (String × Int)
  wagerAmount : Int
  lobbyOwner : String
  guessedCorrectly : List String
  sessionCode : String
  createdAt : Int
  deriving DecidableEq

/-- ChatMessage (App.tsx lines 68-75); isCorrect is always assigned a boolean by
    sendChatMessage. -/
structure ChatMessage where
  id : String
  userId : String
  message : String
  timestamp : Int
  isGuess : Bool
  isCorrect : Bool
  deriving DecidableEq

/-- DrawingPath (App.tsx lines 32-39) without its canvas geometry (points, color,
    strokeWidth), which the spec places out of scope; only clearing the surface and
    ownership of strokes matter here. -/
structure DrawingPath where
  id : String
  userId : String
  timestamp : Int
  deriving DecidableEq

/-- The replicated slots of one session (App.tsx lines 570-591):
    gameState, players, chatMessages, usedWords, originalPrizePool and the shared
    roundAdvanceInProgress guard flag. -/
structure SharedState where
  gameState : GameState
  players : List (String × Player)
  chatMessages : List ChatMessage
  usedWords : List String
  originalPrizePool : Int
  drawingPaths : List DrawingPath
  roundAdvanceInProgress : Bool
  deriving DecidableEq

/-! ## Lobby-owner election (App.tsx lines 864-911) -/

/-- allPlayers.reduce((earliest, current) =>
      current.joinedAt < earliest.joinedAt ? current : earliest)
    — JS reduce with no initial value folds from the first element
    (App.tsx lines 869-871 and 898-900). -/
def earliestPlayer (h : Player) (t : List Player) : Player :=
  t.foldl (fun earliest current =>
    if current.joinedAt < earliest.joinedAt then current else earliest) h

/-- The lobby-owner verification effect (App.tsx lines 894-911): on every change of the
    player set, recompute the earliest-joined player and rewrite gameState.lobbyOwner
    when it is set but different, or unset. -/
def verifyLobbyOwner : GameState → List Player → GameState
  | gs, [] => gs
  | gs, h :: t =>
    if gs.lobbyOwner ≠ "" ∧ gs.lobbyOwner ≠ (earliestPlayer h t).id then
      { gs with lobbyOwner := (earliestPlayer h t).id }
    else if gs.lobbyOwner = "" then { gs with lobbyOwner := (earliestPlayer h t).id }
    else gs

/-! ## Word selection (App.tsx lines 150-161) -/

/-- WORD_BANK (App.tsx lines 151-157). -/
def WORD_BANK : List String :=
  ["cat", "dog", "house", "tree", "car", "sun", "moon", "star", "flower", "bird",
   "fish", "boat", "airplane", "bicycle", "apple", "banana", "pizza", "burger", "cake",
   "ice cream",
   "guitar", "piano", "book", "pencil", "computer", "phone", "clock", "key", "door",
   "window",
   "mountain", "ocean", "beach", "forest", "desert", "rainbow", "lightning", "snowman",
   "umbrella", "balloon",
   "elephant", "lion", "tiger", "monkey", "dolphin", "butterfly", "spider", "snake",
   "rabbit", "horse"]

/-- getRandomWord (App.tsx lines 1149-1161). Math.floor(Math.random() * len) is a
    uniform index below len; it is modelled by the arbitrary index k reduced mod the
    sampled list's length. Returns the chosen word together with the usedWords list as
    left by the call: the exhausted-bank branch resets usedWords to [] and returns a
    bank word WITHOUT recording it; the normal branch appends the chosen word. -/
def getRandomWord (usedWords : List String) (k : Nat) : String × List String :=
  if (WORD_BANK.filter (fun word => !usedWords.contains word)).isEmpty then
    (WORD_BANK.getD (k % WORD_BANK.length) "", [])
  else
    ((WORD_BANK.filter (fun word => !usedWords.contains word)).getD
        (k % (WORD_BANK.filter (fun word => !usedWords.contains word)).length) "",
     usedWords ++
       [(WORD_BANK.filter (fun word => !usedWords.contains word)).getD
          (k % (WORD_BANK.filter (fun word => !usedWords.contains word)).length) ""])

/-! ## Countdown timer (App.tsx lines 760-772) -/

/-- The per-second timer interval body (App.tsx lines 764-769):
    setGameState(prev => ...prev with timeRemaining: Math.max(0, prev.timeRemaining - 1)) —
    a destructive write to the SHARED gameState slot. -/
def timerTick (gs : GameState) : GameState :=
  { gs with timeRemaining := max 0 (gs.timeRemaining - 1) }

/-- Guard under which each client installs the timer interval (App.tsx line 763). It
    does not mention the client's identity or lobby ownership: every connected client
    that satisfies it runs the shared decrement. -/
def timerTickEnabled (gs : GameState) : Bool :=
  decide (gs.phase = Phase.playing) && decide (0 < gs.timeRemaining)

/-- Modelled from the spec (for comparison only — no such derivation exists in the
    code): the canonical derived remaining time
    max(0, roundDurationSeconds - (now - roundStartTime)). -/
def specDerivedRemaining (roundDurationSeconds now roundStartTime : Int) : Int :=
  max 0 (roundDurationSeconds - (now - roundStartTime))

/-- A concrete mid-round playing state 30 clock-seconds after roundStartTime = 0, whose
    shared counter still reads 60. -/
def timerSampleState : GameState :=
  { phase := Phase.playing, currentRound := 1, totalRounds := 3,
    currentDrawer := some "wallet:0xaaa", currentWord := some "cat",
    timeRemaining := 60, roundStartTime := 0, scores := [], wagerAmount := 1,
    lobbyOwner := "wallet:0xaaa", guessedCorrectly := [], sessionCode := "ABCD",
    createdAt := 0 }

/-! ## Guess evaluation and scoring (App.tsx lines 347-437 and 1377-1421) -/

/-- JS String.prototype.toLowerCase, for the ASCII strings this app compares. -/
def jsToLower (s : String) : String := ⟨s.data.map Char.toLower⟩

/-- JS String.prototype.trim: strips whitespace from both ends. -/
def jsTrim (s : String) : String :=
  ⟨((s.data.dropWhile Char.isWhitespace).reverse.dropWhile Char.isWhitespace).reverse⟩

/-- Math.max(0, Math.floor((timeRemaining / 60) * 20)) (App.tsx line 1401); exact in
    integers for the values the app stores (Int.fdiv is Math.floor of the quotient). -/
def timeBonus (timeRemaining : Int) : Int :=
  max 0 (Int.fdiv (timeRemaining * 20) 60)

/-- [100, 80, 60, 40][position] || 40 (App.tsx line 1402); all table entries are
    truthy, so || 40 only replaces the out-of-range undefined. -/
def positionBonus (position : Nat) : Int :=
  ([100, 80, 60, 40] : List Int).getD position 40

/-- The object JS builds by spreading an undefined player record (absent fields
    modelled by defaults; never reached under the hypotheses used below). -/
def jsEmptyPlayer : Player :=
  { id := "", nickname := "", score := 0, hasPaid := false, isReady := false,
    walletAddress := none, joinedAt := 0 }

/-- players with [key]: spread of players[key] plus
    score: (players[key]?.score || 0) + totalPoints (App.tsx lines 1416-1419). -/
def creditPlayerScore (players : List (String × Player)) (key : String)
    (totalPoints : Int) : List (String × Player) :=
  jsSet players key
    (match jsGet players key with
     | some p => { p with score := p.score + totalPoints }
     | none => { jsEmptyPlayer with score := totalPoints })

/-- sendChatMessage (App.tsx lines 1377-1421), for the client currentPlayerKey at clock
    value now. Early-returns when there is no current word (JS also treats the empty
    string as falsy), and when a guesser repeats a guess after having guessed correctly;
    otherwise appends the chat message and, on a correct first guess, credits the
    guesser and the drawer in gameState.scores, appends the guesser to
    guessedCorrectly, and adds the guesser's points to their replicated Player record.
    A null currentDrawer would be used as the literal JS key "null". -/
def sendChatMessage (st : SharedState) (currentPlayerKey message : String) (now : Int) :
    SharedState :=
  match st.gameState.currentWord with
  | none => st
  | some currentWord =>
    if currentWord = "" then st
    else
      let isGuess := st.gameState.phase = Phase.playing ∧
        st.gameState.currentDrawer ≠ some currentPlayerKey
      let isCorrect := isGuess ∧ jsToLower message = jsToLower currentWord
      if isGuess ∧ currentPlayerKey ∈ st.gameState.guessedCorrectly then st
      else
        let chatMessage : ChatMessage :=
          { id := currentPlayerKey ++ "-" ++ toString now,
            userId := currentPlayerKey,
            message := message,
            timestamp := now,
            isGuess := decide isGuess,
            isCorrect := decide isCorrect }
        let st1 := { st with chatMessages := st.chatMessages ++ [chatMessage] }
        if isCorrect ∧ currentPlayerKey ∉ st.gameState.guessedCorrectly then
          let totalPoints := positionBonus st.gameState.guessedCorrectly.length +
            timeBonus st.gameState.timeRemaining
          let drawerKey := st.gameState.currentDrawer.getD "null"
          { st1 with
            gameState := { st1.gameState with
              scores := jsSet
                (jsSet st.gameState.scores currentPlayerKey
                  (jsGetD st.gameState.scores currentPlayerKey 0 + totalPoints))
                drawerKey (jsGetD st.gameState.scores drawerKey 0 + 20),
              guessedCorrectly := st.gameState.guessedCorrectly ++ [currentPlayerKey] },
            players := creditPlayerScore st.players currentPlayerKey totalPoints }
        else st1

/-- GameChat.handleSubmit (App.tsx lines 366-372): trims the input and only forwards it
    when it is nonempty, the local player is not the drawer, the phase is playing, and
    the local player has not already guessed correctly. -/
def handleSubmit (st : SharedState) (myId inputValue : String) (now : Int) :
    SharedState :=
  if jsTrim inputValue ≠ "" ∧
      ¬ st.gameState.currentDrawer = some myId ∧
      st.gameState.phase = Phase.playing ∧
      myId ∉ st.gameState.guessedCorrectly then
    sendChatMessage st myId (jsTrim inputValue) now
  else st

/-- A submitted guess counts as accepted exactly when the pipeline records it: the
    submitter's id is appended to gameState.guessedCorrectly. -/
def guessAccepted (st : SharedState) (myId inputValue : String) (now : Int) : Prop :=
  (handleSubmit st myId inputValue now).gameState.guessedCorrectly =
    st.gameState.guessedCorrectly ++ [myId]

instance (st : SharedState) (myId inputValue : String) (now : Int) :
    Decidable (guessAccepted st myId inputValue now) := by
  unfold guessAccepted
  infer_instance

/-! ## Chat rendering (App.tsx lines 383-407) -/

/-- shouldHideMessage (App.tsx line 385): hide correct answers from everyone except
    their author. -/
def shouldHideMessage (msg : ChatMessage) (myId : String) : Bool :=
  msg.isCorrect && msg.userId != myId

/-- The message text actually rendered for the viewer myId (App.tsx line 402). -/
def renderedMessageText (msg : ChatMessage) (myId : String) : String :=
  if shouldHideMessage msg myId then "✅ guessed correctly!" else msg.message

/-! ## Winner selection (App.tsx lines 1314-1316 and 1734-1737) -/

/-- The reduce body (prev, current) => current.score > prev.score ? current : prev. -/
def winnerStep (prev current : Player) : Player :=
  if prev.score < current.score then current else prev

/-- Object.values(players).reduce(winnerStep) — JS reduce with no initial value folds
    from the first element (App.tsx lines 1314-1316 and 1734-1737). -/
def winnerReduce (h : Player) (t : List Player) : Player :=
  t.foldl winnerStep h

/-- Sample players used by concrete checks. -/
def samplePlayerA : Player :=
  { id := "wallet:0xaaa", nickname := "A", score := 0, hasPaid := true, isReady := true,
    walletAddress := some "0xaaa", joinedAt := 100 }

def samplePlayerB : Player :=
  { id := "wallet:0xbbb", nickname := "B", score := 0, hasPaid := true, isReady := true,
    walletAddress := some "0xbbb", joinedAt := 200 }

/-- A concrete mid-round state: word "cat", drawer wallet:0xaaa (the lobby owner),
    45 seconds remaining, nobody has guessed yet. -/
def sampleState : SharedState :=
  { gameState :=
      { phase := Phase.playing, currentRound := 1, totalRounds := 3,
        currentDrawer := some "wallet:0xaaa", currentWord := some "cat",
        timeRemaining := 45, roundStartTime := 0, scores := [], wagerAmount := 1,
        lobbyOwner := "wallet:0xaaa", guessedCorrectly := [],
        sessionCode := "ABCD", createdAt := 0 },
    players := [("wallet:0xaaa", samplePlayerA), ("wallet:0xbbb", samplePlayerB)],
    chatMessages := [], usedWords := ["cat"], originalPrizePool := 2,
    drawingPaths := [], roundAdvanceInProgress := false }

/-! ## Round scheduler (App.tsx lines 760-833, 1164-1267) -/

/-- Object.values(players).filter(p => p.hasPaid && p.isReady) — the ready players in
    the map's insertion order (App.tsx lines 781, 1170, 1220). -/
def readyPlayers (players : List (String × Player)) : List Player :=
  (players.map Prod.snd).filter (fun p => p.hasPaid && p.isReady)

/-- startGame (App.tsx lines 1164-1212): a no-op for non-owners and with fewer than 2
    ready players (the latter surfaced by an alert); otherwise picks the first ready
    player as drawer, draws a word, resets usedWords to exactly [word] (line 1182
    overwrites whatever getRandomWord recorded), sets round 1 / 60 seconds /
    roundStartTime now, clears guessedCorrectly and the drawing surface, stores the
    prize pool, and enters the playing phase. -/
def startGame (st : SharedState) (currentPlayerKey : String) (k : Nat) (now : Int) :
    SharedState :=
  if st.gameState.lobbyOwner ≠ currentPlayerKey then st
  else if (readyPlayers st.players).length < 2 then st
  else
    { st with
      usedWords := [(getRandomWord st.usedWords k).1],
      originalPrizePool := st.gameState.wagerAmount * (readyPlayers st.players).length,
      gameState := { st.gameState with
        phase := Phase.playing,
        currentRound := 1,
        currentDrawer := some ((readyPlayers st.players).headD jsEmptyPlayer).id,
        currentWord := some (getRandomWord st.usedWords k).1,
        timeRemaining := 60,
        roundStartTime := now,
        guessedCorrectly := [] },
      drawingPaths := [] }

/-- readyPlayers.findIndex(p => p.id === currentDrawer) + 1 — JS findIndex yields -1
    when the drawer is absent, making the successor 0 (App.tsx lines 1221-1222). -/
def nextDrawerIndexBase (st : SharedState) : Nat :=
  match (readyPlayers st.players).findIdx?
      (fun p => decide (st.gameState.currentDrawer = some p.id)) with
  | some i => i + 1
  | none => 0

/-- nextRound (App.tsx lines 1214-1267): owner-only; at or beyond the final round it
    only flips the phase to finished (prize distribution is the escrow call, modelled
    separately); otherwise it increments the round, rotates the drawer to ready index
    (findIndex(currentDrawer)+1) mod readyCount, draws a new word, resets the clock and
    guessedCorrectly, and clears the drawing surface. The unreachable empty-ready-list
    case (where the TS code would crash on readyPlayers[NaN].id) is modelled as a
    no-op. -/
def nextRound (st : SharedState) (currentPlayerKey : String) (k : Nat) (now : Int) :
    SharedState :=
  if st.gameState.lobbyOwner ≠ currentPlayerKey then st
  else if st.gameState.totalRounds ≤ st.gameState.currentRound then
    { st with gameState := { st.gameState with phase := Phase.finished } }
  else
    match (readyPlayers st.players).get?
        (nextDrawerIndexBase st % (readyPlayers st.players).length) with
    | none => st
    | some nextDrawer =>
      { st with
        usedWords := (getRandomWord st.usedWords k).2,
        gameState := { st.gameState with
          currentRound := st.gameState.currentRound + 1,
          currentDrawer := some nextDrawer.id,
          currentWord := some (getRandomWord st.usedWords k).1,
          timeRemaining := 60,
          roundStartTime := now,
          guessedCorrectly := [] },
        drawingPaths := [] }

/-- activePlayers.filter(p => p.id !== currentDrawer) over the ready players
    (App.tsx line 782). -/
def nonDrawerPlayers (st : SharedState) : List Player :=
  (readyPlayers st.players).filter
    (fun p => decide (st.gameState.currentDrawer ≠ some p.id))

/-- nonDrawerPlayers.length > 0 && nonDrawerPlayers.every(p =>
    guessedCorrectly.includes(p.id)) (App.tsx lines 784-785). -/
def allGuessedCorrectly (st : SharedState) : Prop :=
  nonDrawerPlayers st ≠ [] ∧
    ∀ p ∈ nonDrawerPlayers st, p.id ∈ st.gameState.guessedCorrectly

instance (st : SharedState) : Decidable (allGuessedCorrectly st) := by
  unfold allGuessedCorrectly
  infer_instance

/-- The guard of the auto-advance effect for the client currentPlayerKey
    (App.tsx lines 775-798): playing phase, this client is the stored lobby owner, the
    shared roundAdvanceInProgress flag is clear, the counter is non-negative, and
    either the clock ran out or every ready non-drawer (of which there is at least one)
    has guessed correctly. -/
def advanceFires (st : SharedState) (currentPlayerKey : String) : Prop :=
  st.gameState.phase = Phase.playing ∧
  st.gameState.lobbyOwner = currentPlayerKey ∧
  st.roundAdvanceInProgress = false ∧
  0 ≤ st.gameState.timeRemaining ∧
  (st.gameState.timeRemaining = 0 ∨ allGuessedCorrectly st)

instance (st : SharedState) (c : String) : Decidable (advanceFires st c) := by
  unfold advanceFires
  infer_instance

/-- One observed run of the auto-advance effect for a client (App.tsx lines 775-833):
    when the guard fires the client sets the shared roundAdvanceInProgress flag, then
    either flips the phase to finished (currentRound >= totalRounds; the prize call
    acts on the escrow state, modelled separately) or runs nextRound, and finally
    resets the flag. -/
def autoAdvance (st : SharedState) (currentPlayerKey : String) (k : Nat) (now : Int) :
    SharedState :=
  if advanceFires st currentPlayerKey then
    if st.gameState.totalRounds ≤ st.gameState.currentRound then
      { st with
        gameState := { st.gameState with phase := Phase.finished }
        roundAdvanceInProgress := false }
    else
      { nextRound { st with roundAdvanceInProgress := true } currentPlayerKey k now with
        roundAdvanceInProgress := false }
  else st

/-- Modelled from the spec (for comparison only): the advance condition as claim C5
    words it — timeRemaining == 0 or every ready non-drawer player's id is in
    guessedCorrectly, which is vacuously true when there are no ready non-drawers. -/
def specAdvanceCondition (st : SharedState) : Prop :=
  st.gameState.timeRemaining = 0 ∨
    ∀ p ∈ nonDrawerPlayers st, p.id ∈ st.gameState.guessedCorrectly

instance (st : SharedState) : Decidable (specAdvanceCondition st) := by
  unfold specAdvanceCondition
  infer_instance

/-! ## Player join and kick (App.tsx lines 836-892, 1430-1451) -/

/-- The owner (re)assignment done inside the join effect (App.tsx lines 866-886):
    if the stored owner is unset or differs from the earliest-joined player, rewrite
    it. -/
def electLobbyOwner : GameState → List Player → GameState
  | gs, [] => gs
  | gs, h :: t =>
    if gs.lobbyOwner = "" ∨ gs.lobbyOwner ≠ (earliestPlayer h t).id then
      { gs with lobbyOwner := (earliestPlayer h t).id }
    else gs

/-- The player-join initialization effect (App.tsx lines 836-892) for a new wallet key:
    no-op when the key already exists or the wallet address is already bound to another
    record (the duplicate-wallet alert path); otherwise inserts the new Player with
    joinedAt = now and reassigns the lobby owner to the earliest-joined player. -/
def joinPlayer (st : SharedState) (playerKey nickname wallet : String) (now : Int) :
    SharedState :=
  if (jsGet st.players playerKey).isSome then st
  else if (st.players.map Prod.snd).any (fun p => p.walletAddress == some wallet) then st
  else
    { st with
      players := jsSet st.players playerKey
        { id := playerKey, nickname := nickname, score := 0, hasPaid := false,
          isReady := false, walletAddress := some wallet, joinedAt := now },
      gameState := electLobbyOwner st.gameState
        ((jsSet st.players playerKey
          { id := playerKey, nickname := nickname, score := 0, hasPaid := false,
            isReady := false, walletAddress := some wallet,
            joinedAt := now }).map Prod.snd) }

/-- kickPlayer (App.tsx lines 1430-1451): owner-only, lobby phase only; removes the
    player's key from the replicated map. -/
def kickPlayer (st : SharedState) (caller playerId : String) : SharedState :=
  if st.gameState.lobbyOwner ≠ caller then st
  else if st.gameState.phase ≠ Phase.lobby then st
  else { st with players := st.players.filter (fun e => e.1 != playerId) }

/-! ## GameEscrow contract (scripts/deploy.js) and prize distribution
    (App.tsx lines 1270-1375) -/

def ZERO_ADDRESS : String := "0x0000000000000000000000000000000000000000"

/-- One game's slot in the GameEscrow contract (deploy.js lines 13-21); the depositors
    list serves as both the hasDeposited mapping and the players array. -/
structure EscrowGame where
  owner : String
  wagerAmount : Int
  totalDeposits : Int
  depositors : List String
  isFinished : Bool
  winner : String
  deriving DecidableEq

/-- GameEscrow.distributePrize (deploy.js lines 69-84); Except.error models a revert.
    The modifiers run in order: onlyGameOwner, gameExists, gameNotFinished. -/
def contractDistributePrize (g : EscrowGame) (sender winner : String) :
    Except String EscrowGame :=
  if g.owner ≠ sender then Except.error "Only game owner can call this"
  else if g.owner = ZERO_ADDRESS then Except.error "Game does not exist"
  else if g.isFinished then Except.error "Game is already finished"
  else if winner ∉ g.depositors then Except.error "Winner must be a player who deposited"
  else if g.totalDeposits ≤ 0 then Except.error "No deposits to distribute"
  else Except.ok { g with isFinished := true, winner := winner, totalDeposits := 0 }

/-- distributePrizeToWinner (App.tsx lines 1270-1375) acting on the escrow slot: reads
    getGameInfo and returns without calling the contract when the connected wallet is
    not the contract owner (case-insensitive address compare) or when the game is
    already finished with a recorded winner; returns when the computed winner has no
    wallet address; otherwise calls distributePrize, and a caught revert leaves the
    escrow unchanged. -/
def distributePrizeToWinner (g : EscrowGame) (currentWallet : String)
    (winnerAddress : Option String) : EscrowGame :=
  if jsToLower g.owner ≠ jsToLower currentWallet then g
  else if g.isFinished ∧ g.winner ≠ ZERO_ADDRESS then g
  else
    match winnerAddress with
    | none => g
    | some w =>
      match contractDistributePrize g currentWallet w with
      | Except.ok g2 => g2
      | Except.error _ => g

/-! ## The events that mutate shared state -/

/-- One shared-state mutation by some client: a timer tick, an observed auto-advance
    run, a chat submission, the lobby-owner verification effect, startGame from the
    lobby screen (the start button exists only while the lobby screen — phase lobby —
    is rendered, App.tsx lines 1528 and 1684-1698), a player join, or a kick. -/
inductive Step : SharedState → SharedState → Prop where
  | tick (st : SharedState) (h : timerTickEnabled st.gameState = true) :
      Step st { st with gameState := timerTick st.gameState }
  | advance (st : SharedState) (c : String) (k : Nat) (now : Int) :
      Step st (autoAdvance st c k now)
  | chat (st : SharedState) (c m : String) (now : Int) :
      Step st (handleSubmit st c m now)
  | verify (st : SharedState) :
      Step st { st with
        gameState := verifyLobbyOwner st.gameState (st.players.map Prod.snd) }
  | start (st : SharedState) (c : String) (k : Nat) (now : Int)
      (h : st.gameState.phase = Phase.lobby) :
      Step st (startGame st c k now)
  | join (st : SharedState) (key nick wallet : String) (now : Int) :
      Step st (joinPlayer st key nick wallet now)
  | kick (st : SharedState) (c pid : String) :
      Step st (kickPlayer st c pid)

/-- A concrete lobby with two ready players, owner wallet:0xaaa. -/
def sampleLobbyState : SharedState :=
  { gameState :=
      { phase := Phase.lobby, currentRound := 0, totalRounds := 3,
        currentDrawer := none, currentWord := none,
        timeRemaining := 60, roundStartTime := 0, scores := [], wagerAmount := 1,
        lobbyOwner := "wallet:0xaaa", guessedCorrectly := [],
        sessionCode := "ABCD", createdAt := 0 },
    players := [("wallet:0xaaa", samplePlayerA), ("wallet:0xbbb", samplePlayerB)],
    chatMessages := [], usedWords := [], originalPrizePool := 0,
    drawingPaths := [], roundAdvanceInProgress := false }

/-- A playing state whose only ready player is the drawer itself (everyone else left or
    went unready), 30 seconds on the clock, advance flag clear, owner = drawer. -/
def advanceSampleState : SharedState :=
  { gameState :=
      { phase := Phase.playing, currentRound := 1, totalRounds := 3,
        currentDrawer := some "wallet:0xaaa", currentWord := some "dog",
        timeRemaining := 30, roundStartTime := 0, scores := [], wagerAmount := 1,
        lobbyOwner := "wallet:0xaaa", guessedCorrectly := [],
        sessionCode := "ABCD", createdAt := 0 },
    players := [("wallet:0xaaa", samplePlayerA)],
    chatMessages := [], usedWords := [], originalPrizePool := 1,
    drawingPaths := [], roundAdvanceInProgress := false }

/-- A 2-player playing state where the sole non-drawer has guessed correctly. -/
def guessedSampleState : SharedState :=
  { gameState :=
      { phase := Phase.playing, currentRound := 1, totalRounds := 3,
        currentDrawer := some "wallet:0xaaa", currentWord := some "cat",
        timeRemaining := 30, roundStartTime := 0,
        scores := [("wallet:0xbbb", 115), ("wallet:0xaaa", 20)], wagerAmount := 1,
        lobbyOwner := "wallet:0xaaa", guessedCorrectly := ["wallet:0xbbb"],
        sessionCode := "ABCD", createdAt := 0 },
    players := [("wallet:0xaaa", samplePlayerA), ("wallet:0xbbb", samplePlayerB)],
    chatMessages := [], usedWords := ["cat"], originalPrizePool := 2,
    drawingPaths := [], roundAdvanceInProgress := false }

/-- A finished session state for concrete checks. -/
def finishedSampleState : SharedState :=
  { gameState :=
      { phase := Phase.finished, currentRound := 3, totalRounds := 3,
        currentDrawer := some "wallet:0xaaa", currentWord := some "cat",
        timeRemaining := 0, roundStartTime := 0,
        scores := [("wallet:0xbbb", 115), ("wallet:0xaaa", 20)], wagerAmount := 1,
        lobbyOwner := "wallet:0xaaa", guessedCorrectly := [],
        sessionCode := "ABCD", createdAt := 0 },
    players := [("wallet:0xaaa", samplePlayerA), ("wallet:0xbbb", samplePlayerB)],
    chatMessages := [], usedWords := ["cat"], originalPrizePool := 2,
    drawingPaths := [], roundAdvanceInProgress := false }

/-- An escrow slot with two deposits, not yet finished. -/
def sampleEscrow : EscrowGame :=
  { owner := "0xaaa", wagerAmount := 1, totalDeposits := 2,
    depositors := ["0xaaa", "0xbbb"], isFinished := true, winner := ZERO_ADDRESS }

/-- The escrow slot sampleEscrow before distribution (isFinished still false). -/
def sampleEscrowOpen : EscrowGame :=
  { sampleEscrow with isFinished := false }

/-- The escrow slot after a successful distributePrize to 0xbbb. -/
def sampleEscrowAfter : EscrowGame :=
  { sampleEscrowOpen with isFinished := true, winner := "0xbbb", totalDeposits := 0 }

theorem jsGet_jsSet_self {α : Type} (m : List (String × α)) (k : String) (v : α) :
    jsGet (jsSet m k v) k = some v := by
  induction m with
  | nil => simp [jsSet, jsGet]
  | cons e t ih =>
    by_cases h : e.1 = k
    · simp [jsSet, jsGet, h]
    · simp [jsSet, jsGet, h, ih]

theorem jsGet_jsSet_ne {α : Type} (m : List (String × α)) (k k2 : String) (v : α)
    (h : k2 ≠ k) : jsGet (jsSet m k v) k2 = jsGet m k2 := by
  induction m with
  | nil => simp [jsSet, jsGet, Ne.symm h]
  | cons e t ih =>
    by_cases he : e.1 = k
    · simp [jsSet, jsGet, he, Ne.symm h]
    · by_cases he2 : e.1 = k2 <;> simp [jsSet, jsGet, he, he2, ih, h]

theorem jsGetD_jsSet_self {α : Type} (m : List (String × α)) (k : String) (v d : α) :
    jsGetD (jsSet m k v) k d = v := by
  simp [jsGetD, jsGet_jsSet_self]

theorem jsGetD_jsSet_ne {α : Type} (m : List (String × α)) (k k2 : String) (v d : α)
    (h : k2 ≠ k) : jsGetD (jsSet m k v) k2 d = jsGetD m k2 d := by
  simp [jsGetD, jsGet_jsSet_ne m k k2 v h]

theorem earliestPlayer_mem (h : Player) (t : List Player) :
    earliestPlayer h t ∈ h :: t := by
  induction t generalizing h with
  | nil => simp [earliestPlayer]
  | cons c t ih =>
    unfold earliestPlayer
    rw [List.foldl_cons]
    by_cases hc : c.joinedAt < h.joinedAt
    · simp only [hc, if_true]
      have := ih c
      simp only [List.mem_cons] at this ⊢
      tauto
    · simp only [hc, if_false]
      have := ih h
      simp only [List.mem_cons] at this ⊢
      tauto

theorem earliestPlayer_le_split (h : Player) (t : List Player) :
    (earliestPlayer h t).joinedAt ≤ h.joinedAt ∧
    ∀ p ∈ t, (earliestPlayer h t).joinedAt ≤ p.joinedAt := by
  induction t generalizing h with
  | nil => exact ⟨le_refl _, by simp⟩
  | cons c t ih =>
    unfold earliestPlayer
    rw [List.foldl_cons]
    by_cases hc : c.joinedAt < h.joinedAt
    · rw [if_pos hc]
      refine ⟨le_trans (ih c).1 (le_of_lt hc), ?_⟩
      intro p hp
      rcases List.mem_cons.mp hp with rfl | hp
      · exact (ih p).1
      · exact (ih c).2 p hp
    · rw [if_neg hc]
      refine ⟨(ih h).1, ?_⟩
      intro p hp
      rcases List.mem_cons.mp hp with rfl | hp
      · exact le_trans (ih h).1 (le_of_not_lt hc)
      · exact (ih h).2 p hp

theorem earliestPlayer_le (h : Player) (t : List Player) :
    ∀ p ∈ h :: t, (earliestPlayer h t).joinedAt ≤ p.joinedAt := by
  intro p hp
  rcases List.mem_cons.mp hp with rfl | hp
  · exact (earliestPlayer_le_split p t).1
  · exact (earliestPlayer_le_split h t).2 p hp

/-- C1. Lobby-owner invariant: on any player map with at least one player, after the
    self-correcting verification effect runs, gameState.lobbyOwner equals the id of the
    earliest-joined player (a member of the map whose joinedAt is minimal); in
    particular, whenever the stored lobbyOwner differed from that argmin or was unset,
    it has been rewritten to the argmin. -/
theorem lobbyOwner_argmin_after_verify (gs : GameState) (h : Player) (t : List Player) :
    (verifyLobbyOwner gs (h :: t)).lobbyOwner = (earliestPlayer h t).id ∧
    earliestPlayer h t ∈ h :: t ∧
    (∀ p ∈ h :: t, (earliestPlayer h t).joinedAt ≤ p.joinedAt) := by
  refine ⟨?_, earliestPlayer_mem h t, earliestPlayer_le h t⟩
  show (if gs.lobbyOwner ≠ "" ∧ gs.lobbyOwner ≠ (earliestPlayer h t).id then
      { gs with lobbyOwner := (earliestPlayer h t).id }
    else if gs.lobbyOwner = "" then { gs with lobbyOwner := (earliestPlayer h t).id }
    else gs).lobbyOwner = (earliestPlayer h t).id
  by_cases h1 : gs.lobbyOwner ≠ "" ∧ gs.lobbyOwner ≠ (earliestPlayer h t).id
  · rw [if_pos h1]
  · rw [if_neg h1]
    by_cases h2 : gs.lobbyOwner = ""
    · rw [if_pos h2]
    · rw [if_neg h2]
      push_neg at h1
      exact h1 h2

theorem getD_mod_mem {α : Type} (l : List α) (k : Nat) (d : α) (h : l ≠ []) :
    l.getD (k % l.length) d ∈ l := by
  have hlen : 0 < l.length := List.length_pos.mpr h
  have hk : k % l.length < l.length := Nat.mod_lt _ hlen
  rw [List.getD_eq_getElem l d hk]
  exact l.getElem_mem hk

/-- C7 counterexample: with the whole bank used up, pick resets used to [] and returns
    a word ("cat") that is NOT appended to (or re-seeded into) the returned used list,
    so the claim that in every case the chosen word is appended (and that the just-picked
    word is immediately re-seeded after a reset) is false. -/
theorem pick_reset_does_not_reseed :
    (getRandomWord WORD_BANK 0).1 = "cat" ∧
    (getRandomWord WORD_BANK 0).2 = [] ∧
    (getRandomWord WORD_BANK 0).1 ∉ (getRandomWord WORD_BANK 0).2 := by
  refine ⟨by decide, by decide, by decide⟩

/-- C7 (amended): pick(bank, used) never returns a word already in used unless used
    covers the entire bank; when available = bank minus used is nonempty the chosen word
    is a fresh bank word and is appended to used before returning; when available is
    empty (exactly when every bank word is in used) the call resets used to empty and
    returns a bank word WITHOUT re-seeding it into the returned used list (the only
    re-seeding of a fresh game's word happens in startGame, which overwrites usedWords
    with the singleton of the word it picked). -/
theorem pick_spec_amended (used : List String) (k : Nat) :
    (¬ (WORD_BANK.filter (fun word => !used.contains word)).isEmpty →
      (getRandomWord used k).1 ∉ used ∧
      (getRandomWord used k).1 ∈ WORD_BANK ∧
      (getRandomWord used k).2 = used ++ [(getRandomWord used k).1]) ∧
    ((WORD_BANK.filter (fun word => !used.contains word)).isEmpty →
      (getRandomWord used k).2 = [] ∧
      (getRandomWord used k).1 ∈ WORD_BANK) ∧
    ((WORD_BANK.filter (fun word => !used.contains word)).isEmpty ↔
      ∀ w ∈ WORD_BANK, w ∈ used) := by
  refine ⟨?_, ?_, ?_⟩
  · intro hne
    have hfne : WORD_BANK.filter (fun word => !used.contains word) ≠ [] := by
      simpa [List.isEmpty_iff] using hne
    have heq : getRandomWord used k =
        ((WORD_BANK.filter (fun word => !used.contains word)).getD
            (k % (WORD_BANK.filter (fun word => !used.contains word)).length) "",
         used ++
           [(WORD_BANK.filter (fun word => !used.contains word)).getD
              (k % (WORD_BANK.filter (fun word => !used.contains word)).length) ""]) := by
      unfold getRandomWord
      rw [if_neg hne]
    have hmem : (getRandomWord used k).1 ∈
        WORD_BANK.filter (fun word => !used.contains word) := by
      rw [heq]
      exact getD_mod_mem _ k "" hfne
    have hsplit := List.mem_filter.mp hmem
    refine ⟨?_, hsplit.1, ?_⟩
    · have hnc := hsplit.2
      simp at hnc
      exact hnc
    · rw [heq]
  · intro he
    have heq : getRandomWord used k = (WORD_BANK.getD (k % WORD_BANK.length) "", []) := by
      unfold getRandomWord
      rw [if_pos he]
    constructor
    · rw [heq]
    · rw [heq]
      exact getD_mod_mem _ k "" (by decide)
  · rw [List.isEmpty_iff, List.filter_eq_nil_iff]
    constructor
    · intro hall w hw
      have := hall w hw
      simpa using this
    · intro hall w hw
      simpa using hall w hw

/-- C7 amended witness: a concrete pick from a partially used bank returns a fresh bank
    word and appends it. -/
theorem pick_spec_amended_check :
    (getRandomWord ["cat"] 0).1 ∉ (["cat"] : List String) ∧
    (getRandomWord ["cat"] 0).1 ∈ WORD_BANK ∧
    (getRandomWord ["cat"] 0).2 = ["cat"] ++ [(getRandomWord ["cat"] 0).1] :=
  (pick_spec_amended ["cat"] 0).1 (by decide)

/-- C8 counterexample: the timer effect is enabled for every client (its guard ignores
    the client), its body rewrites the shared gameState (a destructive decrement), and
    the maintained counter (59 after one tick) differs from the spec's derived value
    max(0, 60 - (now - roundStartTime)) = 30 at clock time now = 30. -/
theorem countdown_not_derived :
    timerTickEnabled timerSampleState = true ∧
    timerTick timerSampleState ≠ timerSampleState ∧
    (timerTick timerSampleState).timeRemaining = 59 ∧
    specDerivedRemaining 60 30 timerSampleState.roundStartTime = 30 ∧
    (timerTick timerSampleState).timeRemaining ≠
      specDerivedRemaining 60 30 timerSampleState.roundStartTime := by
  refine ⟨by decide, by decide, by decide, by decide, by decide⟩

/-- C8 (amended): during PLAYING the remaining time is maintained as a shared counter,
    not derived from the clock: every client whose view satisfies the guard (phase
    playing and a positive counter — regardless of which client it is) rewrites the
    shared gameState.timeRemaining to max(0, timeRemaining - 1) once per second; the
    new value depends only on the previous counter (not on roundStartTime or the
    clock), never goes negative, and all other GameState fields are left unchanged. -/
theorem countdown_shared_decrement (gs gs2 : GameState) :
    ((timerTick gs).timeRemaining = max 0 (gs.timeRemaining - 1)) ∧
    (gs.timeRemaining = gs2.timeRemaining →
      (timerTick gs).timeRemaining = (timerTick gs2).timeRemaining) ∧
    (0 ≤ (timerTick gs).timeRemaining) ∧
    ((timerTick gs).phase = gs.phase ∧
     (timerTick gs).roundStartTime = gs.roundStartTime ∧
     (timerTick gs).currentRound = gs.currentRound ∧
     (timerTick gs).scores = gs.scores ∧
     (timerTick gs).guessedCorrectly = gs.guessedCorrectly ∧
     (timerTick gs).currentDrawer = gs.currentDrawer ∧
     (timerTick gs).currentWord = gs.currentWord ∧
     (timerTick gs).lobbyOwner = gs.lobbyOwner) := by
  refine ⟨rfl, ?_, le_max_left _ _, rfl, rfl, rfl, rfl, rfl, rfl, rfl, rfl⟩
  intro h
  simp [timerTick, h]

/-- C8 amended witness: two states agreeing on the counter but with different
    roundStartTime tick to the same value. -/
theorem countdown_shared_decrement_check :
    (timerSampleState.timeRemaining =
      ({ timerSampleState with roundStartTime := 1000 } : GameState).timeRemaining) ∧
    (timerTick timerSampleState).timeRemaining =
      (timerTick { timerSampleState with roundStartTime := 1000 }).timeRemaining :=
  ⟨by decide,
   (countdown_shared_decrement timerSampleState
     { timerSampleState with roundStartTime := 1000 }).2.1 (by decide)⟩

theorem sendChatMessage_gc (st : SharedState) (key m : String) (now : Int) (w : String)
    (hw : st.gameState.currentWord = some w) (hwne : w ≠ "") :
    (sendChatMessage st key m now).gameState.guessedCorrectly =
      if (st.gameState.phase = Phase.playing ∧ st.gameState.currentDrawer ≠ some key) ∧
          jsToLower m = jsToLower w ∧ key ∉ st.gameState.guessedCorrectly
      then st.gameState.guessedCorrectly ++ [key]
      else st.gameState.guessedCorrectly := by
  unfold sendChatMessage
  simp only [hw]
  rw [if_neg hwne]
  split_ifs with h1 h2 h3 h3 <;> first | rfl | tauto

theorem sendChatMessage_scores (st : SharedState) (key m : String) (now : Int)
    (w : String) (hw : st.gameState.currentWord = some w) (hwne : w ≠ "") :
    (sendChatMessage st key m now).gameState.scores =
      if (st.gameState.phase = Phase.playing ∧ st.gameState.currentDrawer ≠ some key) ∧
          jsToLower m = jsToLower w ∧ key ∉ st.gameState.guessedCorrectly
      then
        jsSet
          (jsSet st.gameState.scores key
            (jsGetD st.gameState.scores key 0 +
              (positionBonus st.gameState.guessedCorrectly.length +
                timeBonus st.gameState.timeRemaining)))
          (st.gameState.currentDrawer.getD "null")
          (jsGetD st.gameState.scores (st.gameState.currentDrawer.getD "null") 0 + 20)
      else st.gameState.scores := by
  unfold sendChatMessage
  simp only [hw]
  rw [if_neg hwne]
  split_ifs with h1 h2 h3 h3 <;> first | rfl | tauto

theorem sendChatMessage_players (st : SharedState) (key m : String) (now : Int)
    (w : String) (hw : st.gameState.currentWord = some w) (hwne : w ≠ "") :
    (sendChatMessage st key m now).players =
      if (st.gameState.phase = Phase.playing ∧ st.gameState.currentDrawer ≠ some key) ∧
          jsToLower m = jsToLower w ∧ key ∉ st.gameState.guessedCorrectly
      then
        creditPlayerScore st.players key
          (positionBonus st.gameState.guessedCorrectly.length +
            timeBonus st.gameState.timeRemaining)
      else st.players := by
  unfold sendChatMessage
  simp only [hw]
  rw [if_neg hwne]
  split_ifs with h1 h2 h3 h3 <;> first | rfl | tauto

theorem sendChatMessage_chat (st : SharedState) (key m : String) (now : Int)
    (w : String) (hw : st.gameState.currentWord = some w) (hwne : w ≠ "") :
    (sendChatMessage st key m now).chatMessages =
      if (st.gameState.phase = Phase.playing ∧ st.gameState.currentDrawer ≠ some key) ∧
          key ∈ st.gameState.guessedCorrectly
      then st.chatMessages
      else st.chatMessages ++
        [{ id := key ++ "-" ++ toString now, userId := key, message := m,
           timestamp := now,
           isGuess := decide (st.gameState.phase = Phase.playing ∧
             st.gameState.currentDrawer ≠ some key),
           isCorrect := decide ((st.gameState.phase = Phase.playing ∧
             st.gameState.currentDrawer ≠ some key) ∧
             jsToLower m = jsToLower w) }] := by
  unfold sendChatMessage
  simp only [hw]
  rw [if_neg hwne]
  split_ifs <;> rfl

theorem sendChatMessage_reentrant (st : SharedState) (key m : String) (now : Int)
    (w : String) (hw : st.gameState.currentWord = some w) (hwne : w ≠ "")
    (hphase : st.gameState.phase = Phase.playing)
    (hdr : st.gameState.currentDrawer ≠ some key)
    (hold : key ∈ st.gameState.guessedCorrectly) :
    sendChatMessage st key m now = st := by
  unfold sendChatMessage
  simp only [hw]
  rw [if_neg hwne]
  rw [if_pos ⟨⟨hphase, hdr⟩, hold⟩]

theorem sendChatMessage_frame (st : SharedState) (key m : String) (now : Int) :
    (sendChatMessage st key m now).gameState.phase = st.gameState.phase ∧
    (sendChatMessage st key m now).gameState.currentRound = st.gameState.currentRound ∧
    (sendChatMessage st key m now).gameState.totalRounds = st.gameState.totalRounds ∧
    (sendChatMessage st key m now).gameState.currentDrawer = st.gameState.currentDrawer ∧
    (sendChatMessage st key m now).gameState.currentWord = st.gameState.currentWord ∧
    (sendChatMessage st key m now).gameState.timeRemaining = st.gameState.timeRemaining ∧
    (sendChatMessage st key m now).gameState.roundStartTime = st.gameState.roundStartTime ∧
    (sendChatMessage st key m now).gameState.lobbyOwner = st.gameState.lobbyOwner ∧
    (sendChatMessage st key m now).usedWords = st.usedWords ∧
    (sendChatMessage st key m now).drawingPaths = st.drawingPaths ∧
    (sendChatMessage st key m now).roundAdvanceInProgress = st.roundAdvanceInProgress := by
  unfold sendChatMessage
  cases hcw : st.gameState.currentWord with
  | none => simp [hcw]
  | some w =>
    simp only [hcw]
    split_ifs <;> simp [hcw]

theorem jsToLower_empty_iff (s : String) : jsToLower s = "" ↔ s = "" := by
  constructor
  · intro h
    have hd : s.data.map Char.toLower = [] := congrArg String.data h
    have hnil : s.data = [] := List.map_eq_nil_iff.mp hd
    cases s with
    | mk data =>
      simp only [String.data] at hnil
      rw [hnil]
  · intro h
    rw [h]
    rfl

theorem positionBonus_clamp (k : Nat) :
    positionBonus k = ([100, 80, 60, 40] : List Int).getD (min k 3) 40 := by
  match k with
  | 0 => rfl
  | 1 => rfl
  | 2 => rfl
  | 3 => rfl
  | n + 4 =>
    have h1 : min (n + 4) 3 = 3 := by omega
    rw [h1]
    show ([100, 80, 60, 40] : List Int).getD (n + 4) 40 = _
    rw [List.getD_eq_default]
    · rfl
    · simp

/-- C4. Guess acceptance rule: with a (nonempty) current word w set, a submitted guess
    is accepted if and only if the phase is playing, the submitter is not the current
    drawer, the submitter is not already in guessedCorrectly, and the trimmed input
    equals w case-insensitively (exact equality after trim and toLowerCase; no fuzzy
    matching). -/
theorem guess_acceptance_iff (st : SharedState) (myId raw : String) (now : Int)
    (w : String) (hw : st.gameState.currentWord = some w) (hwne : w ≠ "") :
    guessAccepted st myId raw now ↔
      (st.gameState.phase = Phase.playing ∧
       st.gameState.currentDrawer ≠ some myId ∧
       myId ∉ st.gameState.guessedCorrectly ∧
       jsToLower (jsTrim raw) = jsToLower w) := by
  unfold guessAccepted handleSubmit
  by_cases hg : jsTrim raw ≠ "" ∧ ¬ st.gameState.currentDrawer = some myId ∧
      st.gameState.phase = Phase.playing ∧ myId ∉ st.gameState.guessedCorrectly
  · rw [if_pos hg]
    rw [sendChatMessage_gc st myId (jsTrim raw) now w hw hwne]
    by_cases hm : jsToLower (jsTrim raw) = jsToLower w
    · rw [if_pos ⟨⟨hg.2.2.1, hg.2.1⟩, hm, hg.2.2.2⟩]
      constructor
      · intro _
        exact ⟨hg.2.2.1, hg.2.1, hg.2.2.2, hm⟩
      · intro _
        rfl
    · rw [if_neg (fun hc => hm hc.2.1)]
      constructor
      · intro habs
        exact absurd habs (by simp)
      · intro hc
        exact absurd hc.2.2.2 hm
  · rw [if_neg hg]
    constructor
    · intro habs
      exact absurd habs (by simp)
    · intro hc
      exfalso
      apply hg
      refine ⟨?_, hc.2.1, hc.1, hc.2.2.1⟩
      intro htrim
      apply hwne
      rw [← jsToLower_empty_iff]
      rw [← hc.2.2.2, htrim]
      rfl

/-- C4 witness: with word "cat", drawer wallet:0xaaa and guesser wallet:0xbbb who has
    not yet guessed, the input "Cat " (trailing space, capital C) is accepted. -/
theorem guess_acceptance_iff_check :
    guessAccepted
      { gameState :=
          { phase := Phase.playing, currentRound := 1, totalRounds := 3,
            currentDrawer := some "wallet:0xaaa", currentWord := some "cat",
            timeRemaining := 45, roundStartTime := 0, scores := [], wagerAmount := 1,
            lobbyOwner := "wallet:0xaaa", guessedCorrectly := [],
            sessionCode := "ABCD", createdAt := 0 },
        players := [], chatMessages := [], usedWords := ["cat"],
        originalPrizePool := 2, drawingPaths := [], roundAdvanceInProgress := false }
      "wallet:0xbbb" "Cat " 5 := by
  rw [guess_acceptance_iff _ _ _ _ "cat" rfl (by decide)]
  refine ⟨rfl, by decide, by decide, by decide⟩

/-- C3. Scoring amounts on an accepted guess: with k = |guessedCorrectly| before
    insertion, the guesser is credited positionBonus(k) + timeBonus(t) where
    positionBonus(k) = [100,80,60,40][min(k,3)] and timeBonus(t) =
    floor(t/60*20) (never negative); the drawer is credited a flat 20; the guesser is
    appended to guessedCorrectly; a re-entrant guess from a guesser already in
    guessedCorrectly is rejected outright (state unchanged, nothing re-scored). -/
theorem scoring_amounts_on_accept (st : SharedState) (g msg : String) (now : Int)
    (w d : String) (hw : st.gameState.currentWord = some w) (hwne : w ≠ "")
    (hphase : st.gameState.phase = Phase.playing)
    (hdrawer : st.gameState.currentDrawer = some d)
    (hgd : g ≠ d)
    (hmatch : jsToLower msg = jsToLower w) :
    (g ∉ st.gameState.guessedCorrectly →
      jsGetD (sendChatMessage st g msg now).gameState.scores g 0 =
        jsGetD st.gameState.scores g 0 +
          (positionBonus st.gameState.guessedCorrectly.length +
            timeBonus st.gameState.timeRemaining) ∧
      jsGetD (sendChatMessage st g msg now).gameState.scores d 0 =
        jsGetD st.gameState.scores d 0 + 20 ∧
      (sendChatMessage st g msg now).gameState.guessedCorrectly =
        st.gameState.guessedCorrectly ++ [g]) ∧
    (g ∈ st.gameState.guessedCorrectly → sendChatMessage st g msg now = st) ∧
    positionBonus st.gameState.guessedCorrectly.length =
      ([100, 80, 60, 40] : List Int).getD (min st.gameState.guessedCorrectly.length 3) 40 ∧
    0 ≤ timeBonus st.gameState.timeRemaining ∧
    (0 ≤ st.gameState.timeRemaining →
      timeBonus st.gameState.timeRemaining =
        Int.fdiv (st.gameState.timeRemaining * 20) 60) := by
  have hdne : st.gameState.currentDrawer ≠ some g := by
    rw [hdrawer]
    exact fun hc => hgd (Option.some.inj hc).symm
  have hdk : st.gameState.currentDrawer.getD "null" = d := by
    rw [hdrawer]
    rfl
  refine ⟨?_, ?_, positionBonus_clamp _, le_max_left _ _, ?_⟩
  · intro hnew
    have hcond : (st.gameState.phase = Phase.playing ∧
        st.gameState.currentDrawer ≠ some g) ∧
        jsToLower msg = jsToLower w ∧ g ∉ st.gameState.guessedCorrectly :=
      ⟨⟨hphase, hdne⟩, hmatch, hnew⟩
    have hs := sendChatMessage_scores st g msg now w hw hwne
    rw [if_pos hcond, hdk] at hs
    have hgc := sendChatMessage_gc st g msg now w hw hwne
    rw [if_pos hcond] at hgc
    refine ⟨?_, ?_, hgc⟩
    · rw [hs, jsGetD_jsSet_ne _ _ _ _ _ hgd, jsGetD_jsSet_self]
    · rw [hs, jsGetD_jsSet_self]
  · intro hold
    exact sendChatMessage_reentrant st g msg now w hw hwne hphase hdne hold
  · intro ht
    unfold timeBonus
    exact max_eq_right (Int.fdiv_nonneg (by positivity) (by norm_num))

/-- C3 witness: k = 0, t = 45 gives the guesser 100 + 15 = 115 points, the drawer 20,
    and guessedCorrectly = [guesser]. -/
theorem scoring_amounts_on_accept_check :
    jsGetD (sendChatMessage sampleState "wallet:0xbbb" "cat" 5).gameState.scores
      "wallet:0xbbb" 0 = 115 ∧
    jsGetD (sendChatMessage sampleState "wallet:0xbbb" "cat" 5).gameState.scores
      "wallet:0xaaa" 0 = 20 ∧
    (sendChatMessage sampleState "wallet:0xbbb" "cat" 5).gameState.guessedCorrectly =
      ["wallet:0xbbb"] := by
  have h := scoring_amounts_on_accept sampleState "wallet:0xbbb" "cat" 5 "cat"
    "wallet:0xaaa" rfl (by decide) rfl rfl (by decide) rfl
  have h1 := h.1 (by decide)
  exact ⟨h1.1.trans (by decide), h1.2.1.trans (by decide), h1.2.2.trans (by decide)⟩

/-- C9. Answer masking: every evaluated guess — accepted or rejected/incorrect — is
    appended to the message log with its literal text and its isCorrect flag; the
    renderer hides the literal text of a correct message from every viewer other than
    its author, showing the masked marker instead (so the rendered output for such a
    viewer does not depend on the secret text), while the author and all viewers of
    incorrect messages see the literal text. -/
theorem accepted_guess_masked (st : SharedState) (a m : String) (now : Int) (w : String)
    (hw : st.gameState.currentWord = some w) (hwne : w ≠ "")
    (hguard : ¬((st.gameState.phase = Phase.playing ∧
      st.gameState.currentDrawer ≠ some a) ∧ a ∈ st.gameState.guessedCorrectly)) :
    ((sendChatMessage st a m now).chatMessages = st.chatMessages ++
      [{ id := a ++ "-" ++ toString now, userId := a, message := m, timestamp := now,
         isGuess := decide (st.gameState.phase = Phase.playing ∧
           st.gameState.currentDrawer ≠ some a),
         isCorrect := decide ((st.gameState.phase = Phase.playing ∧
           st.gameState.currentDrawer ≠ some a) ∧ jsToLower m = jsToLower w) }]) ∧
    (∀ (msg : ChatMessage) (viewer : String), msg.isCorrect = true →
      viewer ≠ msg.userId →
      renderedMessageText msg viewer = "✅ guessed correctly!") ∧
    (∀ msg : ChatMessage, renderedMessageText msg msg.userId = msg.message) ∧
    (∀ (msg : ChatMessage) (viewer : String), msg.isCorrect = false →
      renderedMessageText msg viewer = msg.message) := by
  refine ⟨?_, ?_, ?_, ?_⟩
  · rw [sendChatMessage_chat st a m now w hw hwne, if_neg hguard]
  · intro msg viewer hc hv
    unfold renderedMessageText shouldHideMessage
    rw [hc]
    simp [Ne.symm hv]
  · intro msg
    unfold renderedMessageText shouldHideMessage
    simp
  · intro msg viewer hc
    unfold renderedMessageText shouldHideMessage
    rw [hc]
    simp

/-- C9 witness: a non-author viewer of a correct guess sees the masked marker. -/
theorem accepted_guess_masked_check :
    renderedMessageText
      { id := "wallet:0xbbb-5", userId := "wallet:0xbbb", message := "cat",
        timestamp := 5, isGuess := true, isCorrect := true }
      "wallet:0xaaa" = "✅ guessed correctly!" :=
  (accepted_guess_masked sampleState "wallet:0xbbb" "cat" 5 "cat" rfl (by decide)
    (by decide)).2.1 _ _ rfl (by decide)

theorem winnerFold_split (t : List Player) (acc : Player) :
    (t.foldl winnerStep acc = acc ∧ ∀ p ∈ t, p.score ≤ acc.score) ∨
    (∃ l1 l2, t = l1 ++ t.foldl winnerStep acc :: l2 ∧
      acc.score < (t.foldl winnerStep acc).score ∧
      (∀ p ∈ l1, p.score < (t.foldl winnerStep acc).score) ∧
      (∀ p ∈ l2, p.score ≤ (t.foldl winnerStep acc).score)) := by
  induction t generalizing acc with
  | nil => exact Or.inl ⟨rfl, by simp⟩
  | cons c t ih =>
    rw [List.foldl_cons]
    by_cases hc : acc.score < c.score
    · rw [show winnerStep acc c = c from if_pos hc]
      rcases ih c with ⟨heq, hall⟩ | ⟨l1, l2, hsplit, hacc, hl1, hl2⟩
      · right
        refine ⟨[], t, by simp [heq], ?_, by simp, ?_⟩
        · rw [heq]
          exact hc
        · intro p hp
          rw [heq]
          exact hall p hp
      · right
        refine ⟨c :: l1, l2, ?_, lt_trans hc hacc, ?_, hl2⟩
        · rw [List.cons_append, ← hsplit]
        · intro p hp
          rcases List.mem_cons.mp hp with rfl | hp
          · exact hacc
          · exact hl1 p hp
    · rw [show winnerStep acc c = acc from if_neg hc]
      rcases ih acc with ⟨heq, hall⟩ | ⟨l1, l2, hsplit, hacc, hl1, hl2⟩
      · refine Or.inl ⟨heq, ?_⟩
        intro p hp
        rcases List.mem_cons.mp hp with rfl | hp
        · exact le_of_not_lt hc
        · exact hall p hp
      · right
        refine ⟨c :: l1, l2, ?_, hacc, ?_, hl2⟩
        · rw [List.cons_append, ← hsplit]
        · intro p hp
          rcases List.mem_cons.mp hp with rfl | hp
          · exact lt_of_le_of_lt (le_of_not_lt hc) hacc
          · exact hl1 p hp

theorem winnerReduce_spec (h : Player) (t : List Player) :
    winnerReduce h t ∈ h :: t ∧
    (∀ p ∈ h :: t, p.score ≤ (winnerReduce h t).score) ∧
    ∃ l1 l2, h :: t = l1 ++ winnerReduce h t :: l2 ∧
      ∀ p ∈ l1, p.score < (winnerReduce h t).score := by
  unfold winnerReduce
  rcases winnerFold_split t h with ⟨heq, hall⟩ | ⟨l1, l2, hsplit, hacc, hl1, hl2⟩
  · rw [heq]
    refine ⟨by simp, ?_, [], t, by simp, by simp⟩
    intro p hp
    rcases List.mem_cons.mp hp with rfl | hp
    · exact le_refl _
    · exact hall p hp
  · generalize hww : t.foldl winnerStep h = w at hsplit hacc hl1 hl2 ⊢
    have hmem : w ∈ t := by
      rw [hsplit]
      exact List.mem_append.mpr (Or.inr (List.mem_cons_self _ _))
    refine ⟨List.mem_cons_of_mem h hmem, ?_, h :: l1, l2, ?_, ?_⟩
    · intro p hp
      rcases List.mem_cons.mp hp with rfl | hp
      · exact le_of_lt hacc
      · rw [hsplit] at hp
        rcases List.mem_append.mp hp with hp | hp
        · exact le_of_lt (hl1 p hp)
        · rcases List.mem_cons.mp hp with rfl | hp
          · exact le_refl _
          · exact hl2 p hp
    · rw [List.cons_append, ← hsplit]
    · intro p hp
      rcases List.mem_cons.mp hp with rfl | hp
      · exact hacc
      · exact hl1 p hp

/-- C10. Score-bookkeeping frame: an accepted guess changes only the guesser's entry in
    the replicated players map (score increased by the total points) and leaves every
    other Player record — including the drawer's — unchanged; the drawer's flat 20 is
    recorded only in gameState.scores; the finished-phase winner reduce picks a member
    of maximal score, and on ties the first-encountered in iteration order (every
    player strictly before it scores strictly less). -/
theorem score_update_frame_and_winner (st : SharedState) (g msg : String) (now : Int)
    (w d : String) (hw : st.gameState.currentWord = some w) (hwne : w ≠ "")
    (hphase : st.gameState.phase = Phase.playing)
    (hdrawer : st.gameState.currentDrawer = some d)
    (hgd : g ≠ d)
    (hmatch : jsToLower msg = jsToLower w)
    (hnew : g ∉ st.gameState.guessedCorrectly)
    (p : Player) (hp : jsGet st.players g = some p) :
    (∀ k2, k2 ≠ g →
      jsGet (sendChatMessage st g msg now).players k2 = jsGet st.players k2) ∧
    jsGet (sendChatMessage st g msg now).players g =
      some { p with score := p.score +
        (positionBonus st.gameState.guessedCorrectly.length +
          timeBonus st.gameState.timeRemaining) } ∧
    jsGet (sendChatMessage st g msg now).players d = jsGet st.players d ∧
    jsGetD (sendChatMessage st g msg now).gameState.scores d 0 =
      jsGetD st.gameState.scores d 0 + 20 ∧
    (∀ (hd : Player) (tl : List Player),
      winnerReduce hd tl ∈ hd :: tl ∧
      (∀ q ∈ hd :: tl, q.score ≤ (winnerReduce hd tl).score) ∧
      ∃ l1 l2, hd :: tl = l1 ++ winnerReduce hd tl :: l2 ∧
        ∀ q ∈ l1, q.score < (winnerReduce hd tl).score) := by
  have hdne : st.gameState.currentDrawer ≠ some g := by
    rw [hdrawer]
    exact fun hc => hgd (Option.some.inj hc).symm
  have hdk : st.gameState.currentDrawer.getD "null" = d := by
    rw [hdrawer]
    rfl
  have hcond : (st.gameState.phase = Phase.playing ∧
      st.gameState.currentDrawer ≠ some g) ∧
      jsToLower msg = jsToLower w ∧ g ∉ st.gameState.guessedCorrectly :=
    ⟨⟨hphase, hdne⟩, hmatch, hnew⟩
  have hpl := sendChatMessage_players st g msg now w hw hwne
  rw [if_pos hcond] at hpl
  have hframe : ∀ k2, k2 ≠ g →
      jsGet (sendChatMessage st g msg now).players k2 = jsGet st.players k2 := by
    intro k2 hk2
    rw [hpl]
    unfold creditPlayerScore
    exact jsGet_jsSet_ne _ _ _ _ hk2
  have hs := sendChatMessage_scores st g msg now w hw hwne
  rw [if_pos hcond, hdk] at hs
  refine ⟨hframe, ?_, hframe d (Ne.symm hgd), ?_, fun hd tl => winnerReduce_spec hd tl⟩
  · rw [hpl]
    unfold creditPlayerScore
    rw [hp]
    exact jsGet_jsSet_self _ _ _
  · rw [hs, jsGetD_jsSet_self]

/-- C10 witness: the accepted guess of wallet:0xbbb leaves wallet:0xaaa's Player record
    unchanged and raises wallet:0xbbb's Player.score to 115. -/
theorem score_update_frame_and_winner_check :
    jsGet (sendChatMessage sampleState "wallet:0xbbb" "cat" 5).players "wallet:0xaaa" =
      jsGet sampleState.players "wallet:0xaaa" ∧
    jsGet (sendChatMessage sampleState "wallet:0xbbb" "cat" 5).players "wallet:0xbbb" =
      some { samplePlayerB with score := 115 } := by
  have h := score_update_frame_and_winner sampleState "wallet:0xbbb" "cat" 5 "cat"
    "wallet:0xaaa" rfl (by decide) rfl rfl (by decide) rfl (by decide)
    samplePlayerB (by decide)
  exact ⟨h.2.2.1, h.2.1.trans (by decide)⟩

theorem verifyLobbyOwner_eq (gs : GameState) (ps : List Player) :
    ∃ o, verifyLobbyOwner gs ps = { gs with lobbyOwner := o } := by
  cases ps with
  | nil => exact ⟨gs.lobbyOwner, rfl⟩
  | cons h t =>
    show ∃ o,
      (if gs.lobbyOwner ≠ "" ∧ gs.lobbyOwner ≠ (earliestPlayer h t).id then
        { gs with lobbyOwner := (earliestPlayer h t).id }
      else if gs.lobbyOwner = "" then { gs with lobbyOwner := (earliestPlayer h t).id }
      else gs) = _
    split_ifs with h1 h2
    · exact ⟨(earliestPlayer h t).id, rfl⟩
    · exact ⟨(earliestPlayer h t).id, rfl⟩
    · exact ⟨gs.lobbyOwner, rfl⟩

theorem electLobbyOwner_eq (gs : GameState) (ps : List Player) :
    ∃ o, electLobbyOwner gs ps = { gs with lobbyOwner := o } := by
  cases ps with
  | nil => exact ⟨gs.lobbyOwner, rfl⟩
  | cons h t =>
    show ∃ o,
      (if gs.lobbyOwner = "" ∨ gs.lobbyOwner ≠ (earliestPlayer h t).id then
        { gs with lobbyOwner := (earliestPlayer h t).id }
      else gs) = _
    split_ifs with h1
    · exact ⟨(earliestPlayer h t).id, rfl⟩
    · exact ⟨gs.lobbyOwner, rfl⟩

theorem handleSubmit_frame (st : SharedState) (c m : String) (now : Int) :
    (handleSubmit st c m now).gameState.phase = st.gameState.phase ∧
    (handleSubmit st c m now).gameState.currentRound = st.gameState.currentRound := by
  unfold handleSubmit
  split_ifs with hg
  · exact ⟨(sendChatMessage_frame st c (jsTrim m) now).1,
      (sendChatMessage_frame st c (jsTrim m) now).2.1⟩
  · exact ⟨rfl, rfl⟩

theorem nextRound_phase_playing (st : SharedState) (c : String) (k : Nat) (now : Int)
    (hph : st.gameState.phase = Phase.playing)
    (hlt : st.gameState.currentRound < st.gameState.totalRounds) :
    (nextRound st c k now).gameState.phase = Phase.playing := by
  unfold nextRound
  split_ifs with h1 h2
  · exact hph
  · exact absurd h2 (not_le.mpr hlt)
  · cases hnd : (readyPlayers st.players).get?
        (nextDrawerIndexBase st % (readyPlayers st.players).length) with
    | none => exact hph
    | some nd => exact hph

theorem nextRound_round_le (st : SharedState) (c : String) (k : Nat) (now : Int) :
    st.gameState.currentRound ≤ (nextRound st c k now).gameState.currentRound := by
  unfold nextRound
  split_ifs with h1 h2
  · exact le_refl _
  · exact le_refl _
  · cases hnd : (readyPlayers st.players).get?
        (nextDrawerIndexBase st % (readyPlayers st.players).length) with
    | none => exact le_refl _
    | some nd => exact le_of_lt (lt_add_one _)

theorem nextRound_effects (st : SharedState) (c : String) (k : Nat) (now : Int)
    (hc : st.gameState.lobbyOwner = c)
    (hlt : st.gameState.currentRound < st.gameState.totalRounds)
    (hready : readyPlayers st.players ≠ []) :
    ∃ nd, (readyPlayers st.players).get?
        (nextDrawerIndexBase st % (readyPlayers st.players).length) = some nd ∧
      nextRound st c k now = { st with
        usedWords := (getRandomWord st.usedWords k).2
        gameState := { st.gameState with
          currentRound := st.gameState.currentRound + 1
          currentDrawer := some nd.id
          currentWord := some (getRandomWord st.usedWords k).1
          timeRemaining := 60
          roundStartTime := now
          guessedCorrectly := [] }
        drawingPaths := [] } := by
  have hlen : 0 < (readyPlayers st.players).length := List.length_pos.mpr hready
  have hk : nextDrawerIndexBase st % (readyPlayers st.players).length <
      (readyPlayers st.players).length := Nat.mod_lt _ hlen
  refine ⟨(readyPlayers st.players).get ⟨_, hk⟩, List.get?_eq_get hk, ?_⟩
  unfold nextRound
  rw [if_neg (fun hn => hn hc), if_neg (not_le.mpr hlt), List.get?_eq_get hk]

/-- C6. startGame gating: a silent no-op (shared state unchanged, phase in particular)
    when called by a non-owner or with fewer than 2 ready (hasPaid and isReady)
    players; when the preconditions hold it picks the first ready player as drawer,
    draws a word, sets currentRound = 1, timeRemaining = 60, roundStartTime = now,
    clears guessedCorrectly, clears the drawing surface, and enters the playing
    phase. -/
theorem startGame_gating (st : SharedState) (c : String) (k : Nat) (now : Int) :
    (st.gameState.lobbyOwner ≠ c → startGame st c k now = st) ∧
    ((readyPlayers st.players).length < 2 → startGame st c k now = st) ∧
    (st.gameState.lobbyOwner = c → 2 ≤ (readyPlayers st.players).length →
      (startGame st c k now).gameState.phase = Phase.playing ∧
      (startGame st c k now).gameState.currentRound = 1 ∧
      (startGame st c k now).gameState.currentDrawer =
        ((readyPlayers st.players).head?).map Player.id ∧
      (startGame st c k now).gameState.currentWord =
        some (getRandomWord st.usedWords k).1 ∧
      (startGame st c k now).gameState.timeRemaining = 60 ∧
      (startGame st c k now).gameState.roundStartTime = now ∧
      (startGame st c k now).gameState.guessedCorrectly = [] ∧
      (startGame st c k now).drawingPaths = [] ∧
      (startGame st c k now).usedWords = [(getRandomWord st.usedWords k).1]) := by
  refine ⟨?_, ?_, ?_⟩
  · intro h
    unfold startGame
    rw [if_pos h]
  · intro h
    unfold startGame
    split_ifs with h1 <;> rfl
  · intro ho hlen
    unfold startGame
    rw [if_neg (fun hn => hn ho), if_neg (not_lt.mpr hlen)]
    refine ⟨rfl, rfl, ?_, rfl, rfl, rfl, rfl, rfl, rfl⟩
    cases hr : readyPlayers st.players with
    | nil =>
      rw [hr] at hlen
      simp at hlen
    | cons a l => rfl

/-- C6 witness: a non-owner call is a no-op, and an owner call with 2 ready players
    starts round 1 in the playing phase. -/
theorem startGame_gating_check :
    startGame sampleLobbyState "wallet:0xbbb" 0 9 = sampleLobbyState ∧
    (startGame sampleLobbyState "wallet:0xaaa" 0 9).gameState.phase = Phase.playing ∧
    (startGame sampleLobbyState "wallet:0xaaa" 0 9).gameState.currentRound = 1 := by
  have h1 := (startGame_gating sampleLobbyState "wallet:0xbbb" 0 9).1 (by decide)
  have h2 := (startGame_gating sampleLobbyState "wallet:0xaaa" 0 9).2.2 rfl (by decide)
  exact ⟨h1, h2.1, h2.2.1⟩

/-- C5 counterexample: in a playing state where the owner's evaluator sees no ready
    non-drawer player, the spec's condition "timeRemaining == 0 or every ready
    non-drawer player's id is in guessedCorrectly" holds vacuously, yet the code's
    advance does not fire (it additionally requires at least one ready non-drawer), and
    the auto-advance run leaves the state unchanged. -/
theorem advance_vacuous_nonDrawers_not_fired :
    specAdvanceCondition advanceSampleState ∧
    advanceSampleState.gameState.phase = Phase.playing ∧
    advanceSampleState.gameState.lobbyOwner = "wallet:0xaaa" ∧
    advanceSampleState.roundAdvanceInProgress = false ∧
    0 ≤ advanceSampleState.gameState.timeRemaining ∧
    ¬ advanceFires advanceSampleState "wallet:0xaaa" ∧
    autoAdvance advanceSampleState "wallet:0xaaa" 0 0 = advanceSampleState := by
  exact ⟨by decide, rfl, rfl, rfl, by decide, by decide, by decide⟩

/-- C5 (amended). Round advance: with a non-negative clock, the advance fires exactly
    when the phase is playing, the evaluating client is the stored lobbyOwner, the
    shared roundAdvanceInProgress guard is clear, and either timeRemaining == 0 or
    there is at least one ready non-drawer player and every ready non-drawer player's
    id is in guessedCorrectly; it never fires for a non-owner or while the guard is
    set; and a non-final advance increments currentRound by 1, rotates currentDrawer to
    the ready player at index (indexOf(currentDrawer) + 1) mod readyCount, draws a new
    word, resets timeRemaining to 60 and roundStartTime to now, clears
    guessedCorrectly, clears the drawing surface, and releases the guard. -/
theorem advance_condition_and_effects (st : SharedState) (c : String) (k : Nat)
    (now : Int) :
    (0 ≤ st.gameState.timeRemaining →
      (advanceFires st c ↔
        st.gameState.phase = Phase.playing ∧
        st.gameState.lobbyOwner = c ∧
        st.roundAdvanceInProgress = false ∧
        (st.gameState.timeRemaining = 0 ∨
          (nonDrawerPlayers st ≠ [] ∧
            ∀ p ∈ nonDrawerPlayers st, p.id ∈ st.gameState.guessedCorrectly)))) ∧
    (st.gameState.lobbyOwner ≠ c → ¬ advanceFires st c) ∧
    (st.roundAdvanceInProgress = true → ¬ advanceFires st c) ∧
    (advanceFires st c →
      st.gameState.currentRound < st.gameState.totalRounds →
      readyPlayers st.players ≠ [] →
      (autoAdvance st c k now).gameState.currentRound =
        st.gameState.currentRound + 1 ∧
      (autoAdvance st c k now).gameState.currentDrawer =
        ((readyPlayers st.players).get?
          (nextDrawerIndexBase st % (readyPlayers st.players).length)).map Player.id ∧
      (autoAdvance st c k now).gameState.currentWord =
        some (getRandomWord st.usedWords k).1 ∧
      (autoAdvance st c k now).gameState.timeRemaining = 60 ∧
      (autoAdvance st c k now).gameState.roundStartTime = now ∧
      (autoAdvance st c k now).gameState.guessedCorrectly = [] ∧
      (autoAdvance st c k now).drawingPaths = [] ∧
      (autoAdvance st c k now).usedWords = (getRandomWord st.usedWords k).2 ∧
      (autoAdvance st c k now).roundAdvanceInProgress = false) := by
  refine ⟨?_, ?_, ?_, ?_⟩
  · intro ht
    unfold advanceFires allGuessedCorrectly
    constructor
    · rintro ⟨h1, h2, h3, _, h5⟩
      exact ⟨h1, h2, h3, h5⟩
    · rintro ⟨h1, h2, h3, h5⟩
      exact ⟨h1, h2, h3, ht, h5⟩
  · intro hne hf
    exact hne hf.2.1
  · intro htrue hf
    rw [hf.2.2.1] at htrue
    exact Bool.false_ne_true htrue
  · intro hf hlt hready
    unfold autoAdvance
    rw [if_pos hf, if_neg (not_le.mpr hlt)]
    obtain ⟨nd, hnd, heq⟩ := nextRound_effects
      { st with roundAdvanceInProgress := true } c k now hf.2.1 hlt hready
    rw [heq]
    refine ⟨rfl, ?_, rfl, rfl, rfl, rfl, rfl, rfl, rfl⟩
    have hnd2 : (readyPlayers st.players).get?
        (nextDrawerIndexBase st % (readyPlayers st.players).length) = some nd := hnd
    rw [hnd2]
    rfl

/-- C5 amended witness: with every ready non-drawer in guessedCorrectly, the owner's
    advance fires and the non-final advance moves to round 2 with a fresh 60-second
    clock and cleared guessedCorrectly. -/
theorem advance_condition_and_effects_check :
    advanceFires guessedSampleState "wallet:0xaaa" ∧
    (autoAdvance guessedSampleState "wallet:0xaaa" 0 7).gameState.currentRound = 2 ∧
    (autoAdvance guessedSampleState "wallet:0xaaa" 0 7).gameState.timeRemaining = 60 ∧
    (autoAdvance guessedSampleState "wallet:0xaaa" 0 7).gameState.roundStartTime = 7 ∧
    (autoAdvance guessedSampleState "wallet:0xaaa" 0 7).gameState.guessedCorrectly =
      [] := by
  have hf : advanceFires guessedSampleState "wallet:0xaaa" := by decide
  have h := (advance_condition_and_effects guessedSampleState "wallet:0xaaa" 0 7).2.2.2
    hf (by decide) (by decide)
  exact ⟨hf, h.1.trans (by decide), h.2.2.2.1, h.2.2.2.2.1, h.2.2.2.2.2.1⟩

theorem autoAdvance_finished_of_final (st : SharedState) (c : String) (k : Nat)
    (now : Int) (hf : advanceFires st c)
    (hge : st.gameState.totalRounds ≤ st.gameState.currentRound) :
    (autoAdvance st c k now).gameState.phase = Phase.finished := by
  unfold autoAdvance
  rw [if_pos hf, if_pos hge]

theorem autoAdvance_playing_of_nonfinal (st : SharedState) (c : String) (k : Nat)
    (now : Int) (hf : advanceFires st c)
    (hlt : st.gameState.currentRound < st.gameState.totalRounds) :
    (autoAdvance st c k now).gameState.phase = Phase.playing := by
  unfold autoAdvance
  rw [if_pos hf, if_neg (not_le.mpr hlt)]
  exact nextRound_phase_playing { st with roundAdvanceInProgress := true } c k now
    hf.1 hlt

theorem autoAdvance_round_le (st : SharedState) (c : String) (k : Nat) (now : Int) :
    st.gameState.currentRound ≤ (autoAdvance st c k now).gameState.currentRound := by
  unfold autoAdvance
  split_ifs with hf hge
  · exact le_refl _
  · exact nextRound_round_le { st with roundAdvanceInProgress := true } c k now
  · exact le_refl _

theorem contractDistributePrize_ok (g : EscrowGame) (sender w : String)
    (g2 : EscrowGame) (h : contractDistributePrize g sender w = Except.ok g2) :
    g2 = { g with isFinished := true, winner := w, totalDeposits := 0 } := by
  unfold contractDistributePrize at h
  split_ifs at h
  exact (Except.ok.inj h).symm

/-- C2. One-shot finish and prize distribution: every shared-state event preserves a
    finished phase (finished is terminal for the session code); currentRound never
    decreases across an event that keeps the phase playing; a triggered advance flips
    the phase to finished exactly when currentRound >= totalRounds and otherwise stays
    playing and increments currentRound by 1; and once one prize-distribution call
    succeeds on the escrow (for a nonzero winner address), any further
    distributePrizeToWinner run by any client is a no-op detected via the contract's
    already-finished state, and any further direct contract call reverts. -/
theorem one_shot_finish_and_prize :
    (∀ st st2, Step st st2 → st.gameState.phase = Phase.finished →
      st2.gameState.phase = Phase.finished) ∧
    (∀ st st2, Step st st2 → st.gameState.phase = Phase.playing →
      st2.gameState.phase = Phase.playing →
      st.gameState.currentRound ≤ st2.gameState.currentRound) ∧
    (∀ st c k now, advanceFires st c →
      st.gameState.totalRounds ≤ st.gameState.currentRound →
      (autoAdvance st c k now).gameState.phase = Phase.finished) ∧
    (∀ st c k now, advanceFires st c →
      st.gameState.currentRound < st.gameState.totalRounds →
      (autoAdvance st c k now).gameState.phase = Phase.playing ∧
      (readyPlayers st.players ≠ [] →
        (autoAdvance st c k now).gameState.currentRound =
          st.gameState.currentRound + 1)) ∧
    (∀ g sender w g2, contractDistributePrize g sender w = Except.ok g2 →
      w ≠ ZERO_ADDRESS →
      (∀ wallet2 w2, distributePrizeToWinner g2 wallet2 w2 = g2) ∧
      (∀ s2 w2 g3, contractDistributePrize g2 s2 w2 ≠ Except.ok g3)) := by
  refine ⟨?_, ?_, ?_, ?_, ?_⟩
  · intro st st2 hstep hfin
    cases hstep with
    | tick h => exact hfin
    | advance c k now =>
      unfold autoAdvance
      split_ifs with hf hge
      · rfl
      · exact absurd (hf.1.symm.trans hfin) (by decide)
      · exact hfin
    | chat c m now => exact (handleSubmit_frame st c m now).1.trans hfin
    | verify =>
      obtain ⟨o, ho⟩ := verifyLobbyOwner_eq st.gameState (st.players.map Prod.snd)
      have hph : (verifyLobbyOwner st.gameState (st.players.map Prod.snd)).phase =
          st.gameState.phase := by rw [ho]
      exact hph.trans hfin
    | start c k now h => exact absurd (h.symm.trans hfin) (by decide)
    | join key nick wallet now =>
      unfold joinPlayer
      split_ifs with h1 h2
      · exact hfin
      · exact hfin
      · obtain ⟨o, ho⟩ := electLobbyOwner_eq st.gameState
          ((jsSet st.players key
            { id := key, nickname := nick, score := 0, hasPaid := false,
              isReady := false, walletAddress := some wallet,
              joinedAt := now }).map Prod.snd)
        have hph : (electLobbyOwner st.gameState
            ((jsSet st.players key
              { id := key, nickname := nick, score := 0, hasPaid := false,
                isReady := false, walletAddress := some wallet,
                joinedAt := now }).map Prod.snd)).phase = st.gameState.phase := by
          rw [ho]
        exact hph.trans hfin
    | kick c pid =>
      unfold kickPlayer
      split_ifs <;> exact hfin
  · intro st st2 hstep hp1 hp2
    cases hstep with
    | tick h => exact le_refl _
    | advance c k now => exact autoAdvance_round_le st c k now
    | chat c m now => exact le_of_eq (handleSubmit_frame st c m now).2.symm
    | verify =>
      obtain ⟨o, ho⟩ := verifyLobbyOwner_eq st.gameState (st.players.map Prod.snd)
      have hr : (verifyLobbyOwner st.gameState (st.players.map Prod.snd)).currentRound =
          st.gameState.currentRound := by rw [ho]
      exact le_of_eq hr.symm
    | start c k now h => exact absurd (h.symm.trans hp1) (by decide)
    | join key nick wallet now =>
      unfold joinPlayer
      split_ifs with h1 h2
      · exact le_refl _
      · exact le_refl _
      · obtain ⟨o, ho⟩ := electLobbyOwner_eq st.gameState
          ((jsSet st.players key
            { id := key, nickname := nick, score := 0, hasPaid := false,
              isReady := false, walletAddress := some wallet,
              joinedAt := now }).map Prod.snd)
        have hr : (electLobbyOwner st.gameState
            ((jsSet st.players key
              { id := key, nickname := nick, score := 0, hasPaid := false,
                isReady := false, walletAddress := some wallet,
                joinedAt := now }).map Prod.snd)).currentRound =
            st.gameState.currentRound := by rw [ho]
        exact le_of_eq hr.symm
    | kick c pid =>
      unfold kickPlayer
      split_ifs <;> exact le_refl _
  · exact fun st c k now hf hge => autoAdvance_finished_of_final st c k now hf hge
  · intro st c k now hf hlt
    refine ⟨autoAdvance_playing_of_nonfinal st c k now hf hlt, ?_⟩
    intro hready
    unfold autoAdvance
    rw [if_pos hf, if_neg (not_le.mpr hlt)]
    obtain ⟨nd, hnd, heq⟩ := nextRound_effects
      { st with roundAdvanceInProgress := true } c k now hf.2.1 hlt hready
    rw [heq]
  · intro g sender w g2 hok hwz
    have hg2 := contractDistributePrize_ok g sender w g2 hok
    constructor
    · intro wallet2 w2
      unfold distributePrizeToWinner
      split_ifs with ha hb
      · rfl
      · rfl
      · exfalso
        apply hb
        rw [hg2]
        exact ⟨rfl, hwz⟩
    · intro s2 w2 g3 habs
      unfold contractDistributePrize at habs
      split_ifs at habs with h1 h2 h3 h4 h5
      exact h3 (by rw [hg2])

/-- C2 witness: an advance observed on an already finished session leaves the phase
    finished, and after one successful contract distribution both the original caller
    and a second client find the game already finished and change nothing. -/
theorem one_shot_finish_and_prize_check :
    (autoAdvance finishedSampleState "wallet:0xaaa" 0 0).gameState.phase =
      Phase.finished ∧
    distributePrizeToWinner sampleEscrowAfter "0xaaa" (some "0xbbb") =
      sampleEscrowAfter ∧
    distributePrizeToWinner sampleEscrowAfter "0xbbb" (some "0xbbb") =
      sampleEscrowAfter := by
  have h := one_shot_finish_and_prize
  refine ⟨h.1 finishedSampleState _
    (Step.advance finishedSampleState "wallet:0xaaa" 0 0) rfl, ?_, ?_⟩
  · exact (h.2.2.2.2 sampleEscrowOpen "0xaaa" "0xbbb" sampleEscrowAfter (by rfl)
      (by decide)).1 "0xaaa" (some "0xbbb")
  · exact (h.2.2.2.2 sampleEscrowOpen "0xaaa" "0xbbb" sampleEscrowAfter (by rfl)
      (by decide)).1 "0xbbb" (some "0xbbb")

/-- C1 witness: with players B (joinedAt 200) then A (joinedAt 100) and a wrongly
    stored owner, the verification effect rewrites lobbyOwner to A's id. -/
theorem lobbyOwner_argmin_after_verify_check :
    (verifyLobbyOwner { sampleLobbyState.gameState with lobbyOwner := "wallet:0xbbb" }
      [samplePlayerB, samplePlayerA]).lobbyOwner = "wallet:0xaaa" :=
  (lobbyOwner_argmin_after_verify
    { sampleLobbyState.gameState with lobbyOwner := "wallet:0xbbb" }
    samplePlayerB [samplePlayerA]).1.trans (by decide)

end App
